import Mathlib

/-!
Verification development for the Nominatim Address Formatter agent
(`src/index.ts`).  The TypeScript source is shallowly embedded below:

* the deterministic decomposer `formatAddress` (lower-casing, the three
  noise-stripping regular-expression passes, the comma/slash split, the
  positional component assignment and the derived query strings);
* the geocoding fallback cascade of `handleSearch`, with the geocoding
  fetch modelled as a function argument and the list of issued queries
  recorded alongside the response;
* the stateful `correctAddress` (model call modelled as an `Except`
  outcome, statistics counters and the bounded processed-address
  history) together with `getStats`.

Character classes follow the ASCII semantics of the JavaScript regular
expressions involved (`\w`, `\s`, `\d`, `[a-z]`); case mapping is the
ASCII one.  Machine floats only occur as the constant `0` confidence, so
confidence is carried as a rational number.
-/

namespace NmAgent

/-- Word characters of the JavaScript `\b` boundary: `[A-Za-z0-9_]`. -/
def isWordChar (c : Char) : Bool :=
  c.isAlpha || c.isDigit || c = '_'

/-- Whitespace recognised by the JavaScript `\s` class (ASCII part). -/
def isSpaceJS (c : Char) : Bool :=
  c = ' ' || c = '\t' || c = '\n' || c = '\r' || c = '\x0b' || c = '\x0c'

/-- Lower-case ASCII letters, the `[a-z]` class of the house-number
pattern. -/
def isLowerAlpha (c : Char) : Bool :=
  'a' ≤ c && c ≤ 'z'

/-- Decides a JavaScript `\b` word boundary at the current scan
position: `prevW` tells whether the character before the position is a
word character, `l` is the remaining input. -/
def boundary (prevW : Bool) (l : List Char) : Bool :=
  match l with
  | [] => prevW
  | c :: _ => prevW != isWordChar c

/-- Word boundary immediately after a word character, given the rest of
the input. -/
def wordEndBoundary (l : List Char) : Bool :=
  match l with
  | [] => true
  | c :: _ => !isWordChar c

/-- Consumes a literal character sequence, returning the rest of the
input on success. -/
def dropLit : List Char → List Char → Option (List Char)
  | [], l => some l
  | _ :: _, [] => none
  | a :: as, b :: bs => if a = b then dropLit as bs else none

/-- Matches the `\s*\d+[a-z]?\b` tail of the house-number pattern,
returning the consumed characters and the rest.  Shrinking the greedy
`\d+` can never succeed (the following character would be a digit, which
neither `[a-z]` nor a `\b` between two digits accepts), so only the
optional trailing letter needs a backtracking case. -/
def matchNumTail (l : List Char) : Option (List Char × List Char) :=
  let sp := l.takeWhile isSpaceJS
  let r1 := l.drop sp.length
  let ds := r1.takeWhile Char.isDigit
  if ds = [] then none
  else
    let r2 := r1.drop ds.length
    match r2 with
    | [] => some (sp ++ ds, [])
    | c :: r3 =>
      if isLowerAlpha c then
        if wordEndBoundary r3 then some (sp ++ ds ++ [c], r3) else none
      else if isWordChar c then none
      else some (sp ++ ds, r2)

/-- Matcher for the house-number pattern
`/\b(?:no\.|number)?\s*\d+[a-z]?\b/g`: the optional alternatives are
tried in source order, then the empty alternative. -/
def matchHouse (prevW : Bool) (l : List Char) : Option (List Char × List Char) :=
  if boundary prevW l then
    (match dropLit ['n', 'o', '.'] l with
     | some r =>
       (matchNumTail r).map (fun (p : List Char × List Char) => (['n', 'o', '.'] ++ p.1, p.2))
     | none => none).orElse (fun _ =>
    (match dropLit ['n', 'u', 'm', 'b', 'e', 'r'] l with
     | some r =>
       (matchNumTail r).map
         (fun (p : List Char × List Char) => (['n', 'u', 'm', 'b', 'e', 'r'] ++ p.1, p.2))
     | none => none).orElse (fun _ =>
    matchNumTail l))
  else none

/-- Tries the word alternatives of a `\b(?:w1|w2|...)\b\s*` pattern in
order at the current position; on a literal match checks the closing
word boundary, then consumes trailing whitespace. -/
def matchAltGo (l : List Char) : List (List Char) → Option (List Char × List Char)
  | [] => none
  | a :: rest =>
    match dropLit a l with
    | some r =>
      if wordEndBoundary r then
        let sp := r.takeWhile isSpaceJS
        some (a ++ sp, r.drop sp.length)
      else matchAltGo l rest
    | none => matchAltGo l rest

/-- Matcher for a `\b(?:w1|w2|...)\b\s*` word-list pattern. -/
def matchAltWord (alts : List (List Char)) (prevW : Bool) (l : List Char) :
    Option (List Char × List Char) :=
  if boundary prevW l then matchAltGo l alts else none

/-- One left-to-right pass of a global regular-expression replacement
with the empty string: at each position the matcher is tried; on a match
the matched characters are dropped and scanning resumes after them, as
with a JavaScript `String.replace(/..../g, '')`.  The fuel argument only
serves termination; it is instantiated with the input length plus one,
which is enough because every match of the patterns above consumes at
least one character. -/
def scanReplace (m : Bool → List Char → Option (List Char × List Char)) :
    Nat → Bool → List Char → List Char
  | 0, _, l => l
  | _ + 1, _, [] => []
  | fuel + 1, prevW, c :: cs =>
    match m prevW (c :: cs) with
    | some (matched, rest) =>
      scanReplace m fuel (isWordChar (matched.getLastD c)) rest
    | none => c :: scanReplace m fuel (isWordChar c) cs

/-- Global replacement of every match of `m` by the empty string. -/
def replaceAllP (m : Bool → List Char → Option (List Char × List Char))
    (l : List Char) : List Char :=
  scanReplace m (l.length + 1) false l

/-- Alternatives of the directional-filler pattern
`/\b(?:off|adjacent to|beside|near|opposite|behind|in front of|next to)\b\s*/gi`,
in source order (the input is already lower-cased when the pattern
runs). -/
def directionalAlts : List (List Char) :=
  ["off", "adjacent to", "beside", "near", "opposite", "behind",
   "in front of", "next to"].map String.data

/-- Alternatives of the determiner-filler pattern
`/\b(?:the|at|on|in)\b\s*/gi`, in source order. -/
def fillerAlts : List (List Char) :=
  ["the", "at", "on", "in"].map String.data

/-- Worker of `collapseWs`; the flag remembers whether the previous
input character was whitespace, so that each maximal whitespace run
produces exactly one space. -/
def collapseWsAux : Bool → List Char → List Char
  | _, [] => []
  | prevSpace, c :: cs =>
    if isSpaceJS c then
      if prevSpace then collapseWsAux true cs
      else ' ' :: collapseWsAux true cs
    else c :: collapseWsAux false cs

/-- Collapses every maximal whitespace run to a single space, the
JavaScript `.replace(/\s+/g, ' ')`. -/
def collapseWs (l : List Char) : List Char :=
  collapseWsAux false l

/-- Removes leading and trailing whitespace, the JavaScript
`.trim()`. -/
def trimJS (l : List Char) : List Char :=
  ((l.dropWhile isSpaceJS).reverse.dropWhile isSpaceJS).reverse

/-- Splits at every separator matched by `/[,\/\\]/g`; empty pieces are
kept here and filtered later, as in the source. -/
def splitSepsAux : List Char → List Char → List (List Char)
  | [], acc => [acc.reverse]
  | c :: cs, acc =>
    if c = ',' || c = '/' || c = '\\' then acc.reverse :: splitSepsAux cs []
    else splitSepsAux cs (c :: acc)

/-- Splitting of the cleaned address on comma, slash or backslash. -/
def splitSeps (l : List Char) : List (List Char) :=
  splitSepsAux l []

/-- ASCII lower-casing of the whole string, the
`address.toLowerCase()` step. -/
def toLowerL (l : List Char) : List Char :=
  l.map Char.toLower

/-- Substring test used for `parts[1].includes('district')` and its
siblings. -/
def containsSubL (needle : List Char) : List Char → Bool
  | [] => needle = []
  | c :: cs =>
    (match dropLit needle (c :: cs) with
     | some _ => true
     | none => false) || containsSubL needle cs

/-- JavaScript `hay.includes(needle)` on strings. -/
def jsIncludes (hay needle : String) : Bool :=
  containsSubL needle.data hay.data

/-- Alternative single-component queries derived by the decomposer
(`alternativeQueries` of the TypeScript `FormattedAddress`). -/
structure AlternativeQueries where
  neighbourhoodOnly : Option String := none
  townOnly : Option String := none
  localGovernmentOnly : Option String := none
deriving Repr, DecidableEq

/-- Structured decomposition of a corrected address, the TypeScript
`FormattedAddress` interface.  Optional fields model the `?` fields of
the interface; `alternativeQueries` stays optional because the object
only receives it at the end of `formatAddress`. -/
structure FormattedAddress where
  street : Option String := none
  neighbourhood : Option String := none
  town : Option String := none
  localGovernment : Option String := none
  state : Option String := none
  formattedQuery : String := ""
  alternativeQueries : Option AlternativeQueries := none
deriving Repr, DecidableEq

/-- JavaScript truthiness of an optional string field: `undefined` and
the empty string are falsy. -/
def jsTruthyS : Option String → Bool
  | none => false
  | some s => s != ""

/-- Cleaning pipeline of `formatAddress` up to `cleanedAddress`:
lower-case, collapse whitespace, trim. -/
def cleanedAddressOf (address : String) : List Char :=
  trimJS (collapseWs (toLowerL address.data))

/-- Cleaning pipeline of `formatAddress` up to `withoutDescriptives`:
the three noise-pattern removals in source order, then whitespace
collapse and trim. -/
def withoutDescriptivesOf (address : String) : List Char :=
  trimJS (collapseWs
    (replaceAllP (matchAltWord fillerAlts)
      (replaceAllP (matchAltWord directionalAlts)
        (replaceAllP matchHouse (cleanedAddressOf address)))))

/-- Segment sequence of `formatAddress`: split on `[,\/\\]`, trim each
piece, keep the non-empty ones. -/
def addressSegments (address : String) : List String :=
  (((splitSeps (withoutDescriptivesOf address)).map
      (fun p => String.mk (trimJS p))).filter (fun s => 0 < s.length))

/-- Component assignment and derived-query construction of
`formatAddress`, operating on the segment list `parts`.  The guard
structure mirrors the TypeScript conditional chain exactly, including
the `!formattedAddress.town` and `!formattedAddress.localGovernment`
truthiness tests. -/
def formatFromParts (parts : List String) : FormattedAddress :=
  let fa : FormattedAddress := { formattedQuery := "" }
  let fa := if 1 ≤ parts.length then { fa with street := some (parts.getD 0 "") } else fa
  let fa :=
    if 2 ≤ parts.length then
      if jsIncludes (parts.getD 1 "") "district" || jsIncludes (parts.getD 1 "") "area" ||
          jsIncludes (parts.getD 1 "") "quarter" then
        let fa := { fa with neighbourhood := some (parts.getD 1 "") }
        if 3 ≤ parts.length then { fa with town := some (parts.getD 2 "") } else fa
      else { fa with town := some (parts.getD 1 "") }
    else fa
  let fa :=
    if 3 ≤ parts.length ∧ ¬ jsTruthyS fa.town then
      { fa with localGovernment := some (parts.getD 2 "") }
    else if 4 ≤ parts.length then { fa with localGovernment := some (parts.getD 3 "") }
    else fa
  let fa :=
    if 4 ≤ parts.length ∧ ¬ jsTruthyS fa.localGovernment then
      { fa with state := some (parts.getD 3 "") }
    else if 5 ≤ parts.length then { fa with state := some (parts.getD 4 "") }
    else fa
  let queryParts : List String :=
    (if jsTruthyS fa.street then [fa.street.getD ""] else []) ++
    (if jsTruthyS fa.neighbourhood then [fa.neighbourhood.getD ""] else []) ++
    (if jsTruthyS fa.town then [fa.town.getD ""] else []) ++
    (if jsTruthyS fa.localGovernment then [fa.localGovernment.getD ""] else []) ++
    (if jsTruthyS fa.state then [fa.state.getD ""] else [])
  let fa := { fa with formattedQuery := String.intercalate ", " queryParts }
  { fa with
    alternativeQueries := some
      { neighbourhoodOnly := if jsTruthyS fa.neighbourhood then fa.neighbourhood else none,
        townOnly := if jsTruthyS fa.town then fa.town else none,
        localGovernmentOnly := if jsTruthyS fa.localGovernment then fa.localGovernment else none } }

/-- Full decomposer, the TypeScript `formatAddress` (the spec name for
it is `decompose`). -/
def formatAddress (address : String) : FormattedAddress :=
  formatFromParts (addressSegments address)

/-- Components actually assigned in a `FormattedAddress`, in the fixed
order street, neighbourhood, town, localGovernment, state. -/
def presentComponents (fa : FormattedAddress) : List String :=
  [fa.street, fa.neighbourhood, fa.town, fa.localGovernment, fa.state].filterMap id

/-- Result of decomposing an input with no remaining segments. -/
def emptyFormattedAddress : FormattedAddress :=
  { street := none, neighbourhood := none, town := none, localGovernment := none,
    state := none, formattedQuery := "",
    alternativeQueries := some
      { neighbourhoodOnly := none, townOnly := none, localGovernmentOnly := none } }

/-- Outcome of the `handleSearch` geocoding cascade.  `results` and
`alternativeResults` mirror the response fields of the handler;
`issuedQueries` is ghost instrumentation recording, in order, the query
strings passed to the geocoding fetch. -/
structure SearchOutcome (α : Type) where
  results : List α
  alternativeResults : Option (List (String × List α))
  issuedQueries : List String
deriving Repr, DecidableEq

/-- Optional chaining `formattedAddress.alternativeQueries?.townOnly`. -/
def townOnlyOf (fa : FormattedAddress) : Option String :=
  match fa.alternativeQueries with
  | none => none
  | some aq => aq.townOnly

/-- Optional chaining
`formattedAddress.alternativeQueries?.neighbourhoodOnly`. -/
def neighbourhoodOnlyOf (fa : FormattedAddress) : Option String :=
  match fa.alternativeQueries with
  | none => none
  | some aq => aq.neighbourhoodOnly

/-- Geocoding cascade of `handleSearch`: the primary query is always
issued; when it yields fewer than 2 results the `townOnly` and then the
`neighbourhoodOnly` alternative queries are issued (each only when its
field is truthy), and their results are collected under the keys
`town` and `neighborhood`.  The collected object is attached as
`alternativeResults` only when it has at least one key.  The geocoding
fetch is the function argument `geocode`. -/
def handleSearchCascade {α : Type} (geocode : String → List α)
    (fa : FormattedAddress) : SearchOutcome α :=
  let data := geocode fa.formattedQuery
  if data.length < 2 then
    let townPart :=
      if jsTruthyS (townOnlyOf fa) then
        let q := (townOnlyOf fa).getD ""
        ([q], [("town", geocode q)])
      else ([], [])
    let nbhdPart :=
      if jsTruthyS (neighbourhoodOnlyOf fa) then
        let q := (neighbourhoodOnlyOf fa).getD ""
        ([q], [("neighborhood", geocode q)])
      else ([], [])
    let altRes := townPart.2 ++ nbhdPart.2
    { results := data,
      alternativeResults := if 0 < altRes.length then some altRes else none,
      issuedQueries := fa.formattedQuery :: (townPart.1 ++ nbhdPart.1) }
  else
    { results := data, alternativeResults := none,
      issuedQueries := [fa.formattedQuery] }

/-- Result object of the correction call, the JSON shape
`{correctedAddress, corrections, confidence}`. -/
structure CorrectionResult where
  correctedAddress : String
  corrections : List String
  confidence : ℚ
deriving Repr, DecidableEq

/-- Entry of the processed-address history. -/
structure ProcessedAddress where
  original : String
  corrected : String
  timestamp : String
deriving Repr, DecidableEq

/-- Counters of `correctionStats`. -/
structure CorrectionStats where
  spellingCorrected : Nat
  missingComponentsAdded : Nat
  totalProcessed : Nat
deriving Repr, DecidableEq

/-- Agent state set up by `init`. -/
structure AgentState where
  processedAddresses : List ProcessedAddress
  correctionStats : CorrectionStats
deriving Repr, DecidableEq

/-- Initial agent state, from `init`. -/
def initState : AgentState :=
  { processedAddresses := [],
    correctionStats :=
      { spellingCorrected := 0, missingComponentsAdded := 0, totalProcessed := 0 } }

/-- JavaScript `arr.slice(-n)` for positive `n`: the at most `n` last
elements. -/
def sliceLast (n : Nat) (l : List α) : List α :=
  l.drop (l.length - n)

/-- One invocation of `correctAddress`.  The whole model interaction
(network call plus `JSON.parse` of the choice content) is modelled by
the `modelOutcome` argument: `Except.error` stands for any throw inside
the `try` block, which happens before the statistics are touched, so the
`catch` branch returns the fallback object and leaves the state
unchanged.  On success the statistics are bumped and the history entry
is appended and trimmed with `slice(-100)`; the timestamp taken from
`new Date()` is passed in as an argument. -/
def correctAddress (modelOutcome : Except String CorrectionResult)
    (address timestamp : String) (st : AgentState) :
    CorrectionResult × AgentState :=
  match modelOutcome with
  | .ok result =>
    let stats0 := st.correctionStats
    let stats1 :=
      if 0 < result.corrections.length then
        { stats0 with spellingCorrected := stats0.spellingCorrected + 1 }
      else stats0
    let stats2 := { stats1 with totalProcessed := stats1.totalProcessed + 1 }
    let history :=
      sliceLast 100 (st.processedAddresses ++
        [{ original := address, corrected := result.correctedAddress,
           timestamp := timestamp }])
    (result, { st with correctionStats := stats2, processedAddresses := history })
  | .error _ =>
    ({ correctedAddress := address, corrections := [], confidence := 0 }, st)

/-- Input of one `correctAddress` invocation: the modelled outcome of
the correction call, the raw address and the wall-clock timestamp. -/
structure CorrectionCall where
  modelOutcome : Except String CorrectionResult
  address : String
  timestamp : String

/-- Runs a sequence of `correctAddress` invocations, threading the agent
state. -/
def runCorrections : List CorrectionCall → AgentState → AgentState
  | [], st => st
  | c :: cs, st =>
    runCorrections cs (correctAddress c.modelOutcome c.address c.timestamp st).2

/-- History entries produced by a sequence of correction calls: exactly
the successful calls contribute one entry each, in order. -/
def entriesOf (calls : List CorrectionCall) : List ProcessedAddress :=
  calls.filterMap (fun c =>
    match c.modelOutcome with
    | .ok r =>
      some { original := c.address, corrected := r.correctedAddress,
             timestamp := c.timestamp }
    | .error _ => none)

/-- Decides whether a correction call succeeded. -/
def okCall (c : CorrectionCall) : Bool :=
  match c.modelOutcome with
  | .ok _ => true
  | .error _ => false

/-- Decides whether a correction call succeeded with a non-empty
corrections list. -/
def okCallWithCorrections (c : CorrectionCall) : Bool :=
  match c.modelOutcome with
  | .ok r => 0 < r.corrections.length
  | .error _ => false

/-- Body of the `getStats` response: the counters plus
`processedAddresses.slice(-10)`. -/
structure StatsSnapshot where
  stats : CorrectionStats
  recentAddresses : List ProcessedAddress
deriving Repr, DecidableEq

/-- Snapshot served by `getStats`. -/
def getStatsSnapshot (st : AgentState) : StatsSnapshot :=
  { stats := st.correctionStats,
    recentAddresses := sliceLast 10 st.processedAddresses }

/-- One request handled by the agent, at the granularity that can touch
the shared state: a `format-address` request is a correction followed by
the pure decomposer, a `search` request is a correction followed by the
pure decomposer and the cascade, and a `stats` request is a read-only
snapshot. -/
inductive AgentOp where
  | formatRequest (modelOutcome : Except String CorrectionResult)
      (address timestamp : String)
  | searchRequest (modelOutcome : Except String CorrectionResult)
      (query timestamp : String) (geocode : String → List Nat)
  | statsRequest

/-- State transition of one agent request.  The decomposer and the
cascade are pure, so only the embedded `correctAddress` invocation can
change the state. -/
def stepOp (op : AgentOp) (st : AgentState) : AgentState :=
  match op with
  | .formatRequest m a t => (correctAddress m a t st).2
  | .searchRequest m q t _ => (correctAddress m q t st).2
  | .statsRequest => st

/-- Runs a sequence of agent requests from a starting state. -/
def runOps : List AgentOp → AgentState → AgentState
  | [], st => st
  | op :: ops, st => runOps ops (stepOp op st)

/-- Geocoding stub returning no result for any query, used for the
concrete cascade checks. -/
def probeGeocode : String → List Nat := fun _ => []

/-- Concrete decomposition with all three alternative queries present,
used for the concrete cascade checks. -/
def probeAddress : FormattedAddress :=
  { formattedQuery := "allen avenue, gra district, ikeja, lagos",
    alternativeQueries := some
      { neighbourhoodOnly := some "gra district", townOnly := some "ikeja",
        localGovernmentOnly := some "lagos" } }

/-- Sequence of 101 successful correction calls used to exercise the
FIFO eviction concretely. -/
def manyCalls : List CorrectionCall :=
  List.replicate 101
    { modelOutcome := Except.ok
        { correctedAddress := "corrected", corrections := [], confidence := 0 },
      address := "original", timestamp := "t" }

/-! Helper lemmas about the bounded history. -/

theorem sliceLast_of_le {l : List α} {n : Nat} (h : l.length ≤ n) :
    sliceLast n l = l := by
  simp [sliceLast, Nat.sub_eq_zero_of_le h]

theorem length_sliceLast (n : Nat) (l : List α) :
    (sliceLast n l).length = min l.length n := by
  simp [sliceLast]
  omega

theorem sliceLast_append_left (n : Nat) (l m : List α) :
    sliceLast n (sliceLast n l ++ m) = sliceLast n (l ++ m) := by
  unfold sliceLast
  rw [← List.drop_append_of_le_length (by simp), List.drop_drop]
  congr 1
  simp
  omega

theorem correctAddress_error_eq (e address timestamp : String) (st : AgentState) :
    correctAddress (Except.error e) address timestamp st
      = ({ correctedAddress := address, corrections := [], confidence := 0 }, st) := rfl

theorem correctAddress_ok_state (r : CorrectionResult) (address timestamp : String)
    (st : AgentState) :
    (correctAddress (Except.ok r) address timestamp st).2
      = { processedAddresses :=
            sliceLast 100 (st.processedAddresses ++
              [{ original := address, corrected := r.correctedAddress,
                 timestamp := timestamp }]),
          correctionStats :=
            { spellingCorrected :=
                st.correctionStats.spellingCorrected +
                  (if 0 < r.corrections.length then 1 else 0),
              missingComponentsAdded := st.correctionStats.missingComponentsAdded,
              totalProcessed := st.correctionStats.totalProcessed + 1 } } := by
  by_cases h : 0 < r.corrections.length <;> simp [correctAddress, h]

theorem runCorrections_history (calls : List CorrectionCall) :
    ∀ st : AgentState, st.processedAddresses.length ≤ 100 →
      (runCorrections calls st).processedAddresses
        = sliceLast 100 (st.processedAddresses ++ entriesOf calls) := by
  induction calls with
  | nil =>
    intro st h
    simp [runCorrections, entriesOf, sliceLast_of_le h]
  | cons c cs ih =>
    intro st h
    rcases c with ⟨mo, address, timestamp⟩
    cases mo with
    | error e =>
      rw [runCorrections, correctAddress_error_eq, ih st h]
      simp [entriesOf]
    | ok r =>
      rw [runCorrections, correctAddress_ok_state, ih]
      · rw [sliceLast_append_left]
        congr 1
        simp [entriesOf]
      · rw [length_sliceLast]
        omega

theorem runCorrections_counts (calls : List CorrectionCall) :
    ∀ st : AgentState,
      (runCorrections calls st).correctionStats.totalProcessed
          = st.correctionStats.totalProcessed + calls.countP okCall ∧
      (runCorrections calls st).correctionStats.spellingCorrected
          = st.correctionStats.spellingCorrected + calls.countP okCallWithCorrections := by
  induction calls with
  | nil => intro st; simp [runCorrections]
  | cons c cs ih =>
    intro st
    rcases c with ⟨mo, address, timestamp⟩
    cases mo with
    | error e =>
      rw [runCorrections, correctAddress_error_eq]
      rcases ih st with ⟨iht, ihs⟩
      constructor
      · rw [iht, List.countP_cons]
        simp [okCall]
      · rw [ihs, List.countP_cons]
        simp [okCallWithCorrections]
    | ok r =>
      rw [runCorrections, correctAddress_ok_state]
      rcases ih _ with ⟨iht, ihs⟩
      constructor
      · rw [iht, List.countP_cons]
        simp [okCall]
        omega
      · rw [ihs, List.countP_cons]
        simp only [okCallWithCorrections]
        by_cases h : 0 < r.corrections.length <;> simp [h]
        all_goals omega

theorem correctAddress_missing (mo : Except String CorrectionResult)
    (address timestamp : String) (st : AgentState) :
    ((correctAddress mo address timestamp st).2).correctionStats.missingComponentsAdded
      = st.correctionStats.missingComponentsAdded := by
  cases mo with
  | ok r => rw [correctAddress_ok_state]
  | error e => rfl

theorem runOps_missing (ops : List AgentOp) :
    ∀ st : AgentState,
      (runOps ops st).correctionStats.missingComponentsAdded
        = st.correctionStats.missingComponentsAdded := by
  induction ops with
  | nil => intro st; rfl
  | cons op ops ih =>
    intro st
    rw [runOps, ih]
    cases op with
    | formatRequest m a t => exact correctAddress_missing m a t st
    | searchRequest m q t g => exact correctAddress_missing m q t st
    | statsRequest => rfl

/-! Claim theorems about the correction statistics and history. -/

/-- Claim C5: `correctAddress` never propagates a failure of the model
interaction to its caller; on any failure it returns exactly the
fallback `{correctedAddress := address, corrections := [],
confidence := 0}` (and, as the embedding makes explicit, leaves the
agent state untouched). -/
theorem correctAddress_failure_fallback (e address timestamp : String) (st : AgentState) :
    correctAddress (Except.error e) address timestamp st
      = ({ correctedAddress := address, corrections := [], confidence := 0 }, st) :=
  rfl

/-- Claim C6, counterexample: a single failing correction call does not
increment `totalProcessed` (the `catch` branch returns before the
statistics update), so after `N = 1` calls `totalProcessed` is `0`, not
`1` as the claim requires. -/
theorem correction_counts_counterexample :
    (runCorrections [{ modelOutcome := Except.error "network failure",
                       address := "some address", timestamp := "t0" }]
        initState).correctionStats.totalProcessed ≠ 1 := by
  decide

/-- Claim C6, amended: every successful correction call increments
`totalProcessed`, and increments `spellingCorrected` exactly when the
returned corrections list is non-empty, while failing calls leave the
counters unchanged; hence after any sequence of calls `totalProcessed`
has grown by the number of successful calls and `spellingCorrected` by
the number of successful calls that yielded non-empty corrections. -/
theorem correction_counts (calls : List CorrectionCall) (st : AgentState) :
    (runCorrections calls st).correctionStats.totalProcessed
        = st.correctionStats.totalProcessed + calls.countP okCall ∧
    (runCorrections calls st).correctionStats.spellingCorrected
        = st.correctionStats.spellingCorrected + calls.countP okCallWithCorrections :=
  runCorrections_counts calls st

/-- Claim C9: the processed-address history is a bounded FIFO.  Starting
from any state whose history respects the bound, the history after a
sequence of correction calls is the 100-element suffix of the old
history extended by one entry per successful call; its length is
therefore `min (old + new) 100`; the `getStats` snapshot exposes the 10
most recent entries; and recording 101 entries into an empty history
drops exactly the first one. -/
theorem history_bounded_fifo (calls : List CorrectionCall) (st : AgentState)
    (h : st.processedAddresses.length ≤ 100) :
    (runCorrections calls st).processedAddresses
        = sliceLast 100 (st.processedAddresses ++ entriesOf calls) ∧
    (runCorrections calls st).processedAddresses.length
        = min (st.processedAddresses.length + (entriesOf calls).length) 100 ∧
    (getStatsSnapshot (runCorrections calls st)).recentAddresses
        = sliceLast 10 (runCorrections calls st).processedAddresses ∧
    (st.processedAddresses = [] → (entriesOf calls).length = 101 →
      (runCorrections calls st).processedAddresses = (entriesOf calls).drop 1) := by
  have ha := runCorrections_history calls st h
  refine ⟨ha, ?_, rfl, ?_⟩
  · rw [ha, length_sliceLast, List.length_append]
  · intro h0 h101
    rw [ha, h0]
    simp [sliceLast, h101]

/-- Witness for the claim C9 theorem: at the initial state and 101
successful calls, all hypotheses hold and the first history entry is
evicted. -/
theorem history_bounded_fifo_witness :
    initState.processedAddresses.length ≤ 100 ∧
    initState.processedAddresses = [] ∧
    (entriesOf manyCalls).length = 101 ∧
    (runCorrections manyCalls initState).processedAddresses
      = (entriesOf manyCalls).drop 1 :=
  ⟨by decide, rfl, by decide,
    (history_bounded_fifo manyCalls initState (by decide)).2.2.2 rfl (by decide)⟩

/-- Claim C10: `missingComponentsAdded` is initialized to 0 by `init`
and no agent operation (correction, format, search, stats) ever changes
it, so it stays 0 for the process lifetime. -/
theorem missing_components_never_incremented :
    initState.correctionStats.missingComponentsAdded = 0 ∧
    ∀ ops : List AgentOp,
      (runOps ops initState).correctionStats.missingComponentsAdded = 0 := by
  refine ⟨rfl, fun ops => ?_⟩
  rw [runOps_missing ops initState]
  rfl

/-! Claim theorems about the geocoding cascade. -/

theorem jsTruthyS_some_getD {o : Option String} (h : jsTruthyS o = true) :
    some (o.getD "") = o := by
  cases o with
  | none => simp [jsTruthyS] at h
  | some s => rfl

/-- Claim C4: when the primary geocode call returns fewer than 2 results
and both single-component alternatives are truthy, exactly the primary,
`townOnly` and `neighbourhoodOnly` queries are issued, in that order,
and `alternativeResults` is keyed `town` then `neighborhood`; when the
primary call returns 2 or more results only the primary query is issued
and `alternativeResults` is absent; and in every case each issued query
is the primary query or one of those two alternatives, so the
`localGovernmentOnly` alternative is never consulted. -/
theorem cascade_call_pattern {α : Type} (geocode : String → List α)
    (fa : FormattedAddress) :
    ((geocode fa.formattedQuery).length < 2 →
      jsTruthyS (townOnlyOf fa) = true →
      jsTruthyS (neighbourhoodOnlyOf fa) = true →
      (handleSearchCascade geocode fa).issuedQueries
          = [fa.formattedQuery, (townOnlyOf fa).getD "",
             (neighbourhoodOnlyOf fa).getD ""] ∧
      (handleSearchCascade geocode fa).alternativeResults
          = some [("town", geocode ((townOnlyOf fa).getD "")),
                  ("neighborhood", geocode ((neighbourhoodOnlyOf fa).getD ""))]) ∧
    (2 ≤ (geocode fa.formattedQuery).length →
      (handleSearchCascade geocode fa).issuedQueries = [fa.formattedQuery] ∧
      (handleSearchCascade geocode fa).alternativeResults = none) ∧
    (∀ q ∈ (handleSearchCascade geocode fa).issuedQueries,
      q = fa.formattedQuery ∨ some q = townOnlyOf fa ∨ some q = neighbourhoodOnlyOf fa) := by
  refine ⟨?_, ?_, ?_⟩
  · intro h1 h2 h3
    simp [handleSearchCascade, h1, h2, h3]
  · intro h
    have h1 : ¬ (geocode fa.formattedQuery).length < 2 := by omega
    simp [handleSearchCascade, h1]
  · intro q hq
    by_cases h1 : (geocode fa.formattedQuery).length < 2
    · by_cases h2 : jsTruthyS (townOnlyOf fa)
      · by_cases h3 : jsTruthyS (neighbourhoodOnlyOf fa)
        · simp [handleSearchCascade, h1, h2, h3] at hq
          rcases hq with hq | hq | hq
          · exact Or.inl hq
          · exact Or.inr (Or.inl (by rw [hq]; exact jsTruthyS_some_getD h2))
          · exact Or.inr (Or.inr (by rw [hq]; exact jsTruthyS_some_getD h3))
        · simp [handleSearchCascade, h1, h2, h3] at hq
          rcases hq with hq | hq
          · exact Or.inl hq
          · exact Or.inr (Or.inl (by rw [hq]; exact jsTruthyS_some_getD h2))
      · by_cases h3 : jsTruthyS (neighbourhoodOnlyOf fa)
        · simp [handleSearchCascade, h1, h2, h3] at hq
          rcases hq with hq | hq
          · exact Or.inl hq
          · exact Or.inr (Or.inr (by rw [hq]; exact jsTruthyS_some_getD h3))
        · simp [handleSearchCascade, h1, h2, h3] at hq
          exact Or.inl hq
    · simp [handleSearchCascade, h1] at hq
      exact Or.inl hq

/-- Witness for the claim C4 theorem: with an empty-result geocoder and
both alternatives present, the hypotheses hold and exactly the three
queries are issued with the two-key `alternativeResults`. -/
theorem cascade_call_pattern_witness :
    (probeGeocode probeAddress.formattedQuery).length < 2 ∧
    jsTruthyS (townOnlyOf probeAddress) = true ∧
    jsTruthyS (neighbourhoodOnlyOf probeAddress) = true ∧
    (handleSearchCascade probeGeocode probeAddress).issuedQueries
        = [probeAddress.formattedQuery, (townOnlyOf probeAddress).getD "",
           (neighbourhoodOnlyOf probeAddress).getD ""] ∧
    (handleSearchCascade probeGeocode probeAddress).alternativeResults
        = some [("town", probeGeocode ((townOnlyOf probeAddress).getD "")),
                ("neighborhood", probeGeocode ((neighbourhoodOnlyOf probeAddress).getD ""))] := by
  refine ⟨by decide, by decide, by decide, ?_, ?_⟩
  · exact ((cascade_call_pattern probeGeocode probeAddress).1
      (by decide) (by decide) (by decide)).1
  · exact ((cascade_call_pattern probeGeocode probeAddress).1
      (by decide) (by decide) (by decide)).2

/-- Claim C8, counterexample: with an empty-result geocoder the
`townOnly` and `neighbourhoodOnly` fallbacks are issued and both return
the empty list, yet `alternativeResults` is still present (the source
only checks that the collected object has a key, not that any fallback
result is non-empty), refuting the claimed if-and-only-if. -/
theorem alternative_results_counterexample :
    ¬ (((handleSearchCascade probeGeocode probeAddress).alternativeResults ≠ none) ↔
        ∃ q ∈ (handleSearchCascade probeGeocode probeAddress).issuedQueries.drop 1,
          probeGeocode q ≠ []) := by
  decide

/-- Claim C8, amended: `alternativeResults` is present exactly when at
least one fallback geocode query was actually issued, regardless of
whether the fallback results are empty; the primary results are always
returned under `results`; and every entry of `alternativeResults` is
keyed `town` or `neighborhood` and carries the geocode result of the
corresponding alternative query, supplementing and never replacing the
primary results. -/
theorem alternative_results_presence {α : Type} (geocode : String → List α)
    (fa : FormattedAddress) :
    ((handleSearchCascade geocode fa).alternativeResults ≠ none ↔
      1 < (handleSearchCascade geocode fa).issuedQueries.length) ∧
    (handleSearchCascade geocode fa).results = geocode fa.formattedQuery ∧
    (∀ kv ∈ ((handleSearchCascade geocode fa).alternativeResults.getD []),
      (kv.1 = "town" ∧ kv.2 = geocode ((townOnlyOf fa).getD "")) ∨
      (kv.1 = "neighborhood" ∧ kv.2 = geocode ((neighbourhoodOnlyOf fa).getD ""))) := by
  by_cases h1 : (geocode fa.formattedQuery).length < 2
  · by_cases h2 : jsTruthyS (townOnlyOf fa) <;>
      by_cases h3 : jsTruthyS (neighbourhoodOnlyOf fa) <;>
      refine ⟨by simp [handleSearchCascade, h1, h2, h3], by simp [handleSearchCascade, h1, h2, h3], ?_⟩ <;>
      intro kv hkv <;>
      simp [handleSearchCascade, h1, h2, h3] at hkv
    · rcases hkv with hkv | hkv
      · exact Or.inl (by simp [hkv])
      · exact Or.inr (by simp [hkv])
    · exact Or.inl (by simp [hkv])
    · exact Or.inr (by simp [hkv])
  · refine ⟨by simp [handleSearchCascade, h1], by simp [handleSearchCascade, h1], ?_⟩
    intro kv hkv
    simp [handleSearchCascade, h1] at hkv

/-- Witness for the claim C8 amended theorem: at the concrete
empty-result instance the `town` entry of `alternativeResults` carries
the geocode result of the `townOnly` query. -/
theorem alternative_results_presence_witness :
    (("town", ([] : List Nat))
        ∈ ((handleSearchCascade probeGeocode probeAddress).alternativeResults.getD [])) ∧
    ((("town", ([] : List Nat)).1 = "town" ∧
        ("town", ([] : List Nat)).2 = probeGeocode ((townOnlyOf probeAddress).getD "")) ∨
     (("town", ([] : List Nat)).1 = "neighborhood" ∧
        ("town", ([] : List Nat)).2 = probeGeocode ((neighbourhoodOnlyOf probeAddress).getD ""))) :=
  ⟨by decide,
    (alternative_results_presence probeGeocode probeAddress).2.2 ("town", []) (by decide)⟩

/-! Claim theorems about the decomposer on concrete inputs. -/

/-- Claim C2: on `"Allen Avenue, GRA district, Ikeja, Lagos"` the
neighbourhood-keyword shift assigns `neighbourhood = "gra district"`,
`town = "ikeja"`, `localGovernment = "lagos"` and leaves `state`
absent. -/
theorem neighbourhood_shift_example :
    (formatAddress "Allen Avenue, GRA district, Ikeja, Lagos").neighbourhood
        = some "gra district" ∧
    (formatAddress "Allen Avenue, GRA district, Ikeja, Lagos").town = some "ikeja" ∧
    (formatAddress "Allen Avenue, GRA district, Ikeja, Lagos").localGovernment
        = some "lagos" ∧
    (formatAddress "Allen Avenue, GRA district, Ikeja, Lagos").state = none := by
  decide

/-- Claim C3, divergence witness: on
`"Allen Avenue, Ikeja, Lagos, Nigeria"` (no neighbourhood keyword) the
code assigns `localGovernment = "nigeria"` (segment 3) and leaves
`state` absent, dropping `"lagos"` entirely, because the guard
`parts.length >= 3 && !formattedAddress.town` is unreachable (`town` is
always set once three segments exist), so the claimed assignment
`localGovernment = "lagos"`, `state = "nigeria"` does not happen. -/
theorem non_shift_divergence :
    (formatAddress "Allen Avenue, Ikeja, Lagos, Nigeria").street = some "allen avenue" ∧
    (formatAddress "Allen Avenue, Ikeja, Lagos, Nigeria").town = some "ikeja" ∧
    (formatAddress "Allen Avenue, Ikeja, Lagos, Nigeria").localGovernment
        = some "nigeria" ∧
    (formatAddress "Allen Avenue, Ikeja, Lagos, Nigeria").state = none := by
  decide

/-- Claim C7, divergence witness: the noise-free input
`"allen avenue, ikeja, lagos, nigeria"` (the noise-stripping passes
leave it unchanged) decomposes with `localGovernment = "nigeria"`, but
re-decomposing its own `formattedQuery` leaves `localGovernment`
absent, so decomposition is not idempotent on noise-free inputs. -/
theorem idempotence_divergence :
    withoutDescriptivesOf "allen avenue, ikeja, lagos, nigeria"
        = cleanedAddressOf "allen avenue, ikeja, lagos, nigeria" ∧
    (formatAddress "allen avenue, ikeja, lagos, nigeria").localGovernment
        = some "nigeria" ∧
    (formatAddress
        (formatAddress "allen avenue, ikeja, lagos, nigeria").formattedQuery).localGovernment
        = none := by
  decide

/-! Claim C1: the derived query string. -/

theorem mem_addressSegments_ne_empty {a p : String} (hp : p ∈ addressSegments a) :
    p ≠ "" := by
  unfold addressSegments at hp
  rw [List.mem_filter] at hp
  intro h
  subst h
  simp at hp

set_option maxHeartbeats 2000000 in
theorem formatFromParts_query (parts : List String) (h : ∀ p ∈ parts, p ≠ "") :
    (formatFromParts parts).formattedQuery
      = String.intercalate ", " (presentComponents (formatFromParts parts)) := by
  match parts with
  | [] => rfl
  | [a] =>
    have ha := h a (by simp)
    simp [formatFromParts, presentComponents, jsTruthyS, ha]
  | [a, b] =>
    have ha := h a (by simp)
    have hb := h b (by simp)
    simp only [formatFromParts, List.length_cons, List.length_nil]
    by_cases hkw : (jsIncludes b "district" || jsIncludes b "area" ||
        jsIncludes b "quarter") = true <;>
      simp [hkw, jsTruthyS, presentComponents, ha, hb]
  | [a, b, c] =>
    have ha := h a (by simp)
    have hb := h b (by simp)
    have hc := h c (by simp)
    simp only [formatFromParts, List.length_cons, List.length_nil]
    by_cases hkw : (jsIncludes b "district" || jsIncludes b "area" ||
        jsIncludes b "quarter") = true <;>
      simp [hkw, jsTruthyS, presentComponents, ha, hb, hc]
  | [a, b, c, d] =>
    have ha := h a (by simp)
    have hb := h b (by simp)
    have hc := h c (by simp)
    have hd := h d (by simp)
    simp only [formatFromParts, List.length_cons, List.length_nil]
    by_cases hkw : (jsIncludes b "district" || jsIncludes b "area" ||
        jsIncludes b "quarter") = true <;>
      simp [hkw, jsTruthyS, presentComponents, ha, hb, hc, hd]
  | a :: b :: c :: d :: e :: rest =>
    have ha := h a (by simp)
    have hb := h b (by simp)
    have hc := h c (by simp)
    have hd := h d (by simp)
    have he := h e (by simp)
    simp only [formatFromParts, List.length_cons]
    have h1 : 1 ≤ rest.length + 1 + 1 + 1 + 1 + 1 := by omega
    have h2 : 2 ≤ rest.length + 1 + 1 + 1 + 1 + 1 := by omega
    have h3 : 3 ≤ rest.length + 1 + 1 + 1 + 1 + 1 := by omega
    have h4 : 4 ≤ rest.length + 1 + 1 + 1 + 1 + 1 := by omega
    have h5 : 5 ≤ rest.length + 1 + 1 + 1 + 1 + 1 := by omega
    by_cases hkw : (jsIncludes b "district" || jsIncludes b "area" ||
        jsIncludes b "quarter") = true <;>
      simp [hkw, h1, h2, h3, h4, h5, jsTruthyS, presentComponents, ha, hb, hc, hd, he]

/-- Claim C1: for every input string the decomposer returns (it is a
total function); its `formattedQuery` is exactly the `", "`-join, in the
fixed order street, neighbourhood, town, localGovernment, state, of
precisely the components assigned in the returned struct, with absent
components skipped; and an input whose segment list is empty (an empty
or all-noise input) yields the empty struct with
`formattedQuery = ""`. -/
theorem formatted_query_is_join (address : String) :
    (formatAddress address).formattedQuery
        = String.intercalate ", " (presentComponents (formatAddress address)) ∧
    (addressSegments address = [] → formatAddress address = emptyFormattedAddress) := by
  constructor
  · exact formatFromParts_query (addressSegments address)
      (fun p hp => mem_addressSegments_ne_empty hp)
  · intro h
    rw [formatAddress, h]
    rfl

/-- Witness for the claim C1 theorem: the all-noise input
`"off the 12"` strips to nothing, so its segment list is empty and
decomposition yields the empty struct. -/
theorem formatted_query_is_join_witness :
    addressSegments "off the 12" = [] ∧
    formatAddress "off the 12" = emptyFormattedAddress :=
  ⟨by decide, (formatted_query_is_join "off the 12").2 (by decide)⟩

end NmAgent
